import Mathlib

/-!
Shallow embedding of the `tool_gateway` package of the nssa_aiagent
repository (src/tool_gateway/{models,catalog,registry,router,audit,gateway}.py)
and verification of a set of claims about it.

Conventions used throughout:
* Python dicts are modelled as functions into `Option` (or into `List` with
  default `[]` where the code uses `dict.get(k, [])`), since only get/set
  semantics are exercised by the claims.
* `datetime` instants are modelled as integer timestamps (milliseconds).
* File and network I/O is abstracted: the parsed configuration documents and
  the MCP manager call are parameters of the embedded functions; the MCP call
  returns `Except String α`, the `.error` case standing for a raised exception.
* Python `list.sort` is a stable sort; it is modelled by insertion sort, which
  is stable.
-/

namespace ToolGW

/-- Call status enum, from `models.py` (`ToolCallStatus`). -/
inductive ToolCallStatus where
  | pending
  | running
  | success
  | failed
  | timeout
  | permission_denied
deriving DecidableEq

/-- `ToolBinding` dataclass from `models.py`: one logical-to-physical binding. -/
structure ToolBinding where
  mcp_server : String
  physical_tool : String
  environment : String := "default"
  priority : Int := 1
  enabled : Bool := true
deriving DecidableEq

/-- `ToolPermission` dataclass from `models.py`. -/
structure ToolPermission where
  allowed_agents : List String := []
  require_confirmation : Bool := false
  dangerous_patterns : List String := []
deriving DecidableEq

/-- `ToolDefinition` dataclass from `models.py`. -/
structure ToolDefinition where
  logical_name : String
  description : String := ""
  category : String := ""
  tags : List String := []
  bindings : List ToolBinding := []
  permissions : Option ToolPermission := none
deriving DecidableEq

/-- State of a `ToolCatalog` instance (`catalog.py`): the `tools` dict and the
physical-to-logical reverse index. -/
structure ToolCatalogState where
  tools : String → Option ToolDefinition
  physical_to_logical : String → Option String

/-- `ToolCatalog.get_tool`. -/
def ToolCatalogState.get_tool (cat : ToolCatalogState) (logical_name : String) :
    Option ToolDefinition :=
  cat.tools logical_name

/-- `ToolCatalog.get_logical_name`. -/
def ToolCatalogState.get_logical_name (cat : ToolCatalogState) (physical_tool : String) :
    Option String :=
  cat.physical_to_logical physical_tool

/-- Insert a binding into a list already sorted by descending priority, before
the first element of smaller-or-equal priority.  Used to model the stable
descending sort `enabled_bindings.sort(key=lambda b: b.priority, reverse=True)`
in `ToolCatalog.get_binding`. -/
def insertDesc (x : ToolBinding) : List ToolBinding → List ToolBinding
  | [] => [x]
  | y :: ys => if y.priority ≤ x.priority then x :: y :: ys else y :: insertDesc x ys

/-- Stable sort by descending `priority` (insertion sort). -/
def sortByPriorityDesc : List ToolBinding → List ToolBinding
  | [] => []
  | x :: xs => insertDesc x (sortByPriorityDesc xs)

/-- `ToolCatalog.get_binding` from `catalog.py`: filter enabled bindings of the
requested environment, fall back to the `"default"` environment, then sort by
descending priority (stable) and return the head. -/
def ToolCatalogState.get_binding (cat : ToolCatalogState) (logical_name : String)
    (environment : String) : Option ToolBinding :=
  match cat.get_tool logical_name with
  | none => none
  | some tool =>
    let enabled1 := tool.bindings.filter (fun b => b.enabled && (b.environment == environment))
    let enabled2 :=
      if enabled1.isEmpty then
        tool.bindings.filter (fun b => b.enabled && (b.environment == "default"))
      else enabled1
    if enabled2.isEmpty then none
    else (sortByPriorityDesc enabled2).head?

/-- Scan a list keeping the first element of maximal priority: the current best
is replaced only by a strictly greater priority. -/
def firstMaxAux (best : ToolBinding) : List ToolBinding → ToolBinding
  | [] => best
  | c :: rest => firstMaxAux (if best.priority < c.priority then c else best) rest

/-- The binding with the highest priority value, ties broken by original
declaration order; `none` on the empty list. -/
def firstMaxBinding : List ToolBinding → Option ToolBinding
  | [] => none
  | x :: xs => some (firstMaxAux x xs)

/-- Modelled from the spec wording for `get_binding`: filter bindings to
enabled ∧ environment = requested; if empty fall back to enabled ∧
environment = "default"; if still empty return absent; otherwise select the
binding with the highest priority value, ties broken by declaration order. -/
def ToolCatalogState.get_binding_spec (cat : ToolCatalogState) (logical_name : String)
    (environment : String) : Option ToolBinding :=
  match cat.tools logical_name with
  | none => none
  | some tool =>
    let cands := tool.bindings.filter (fun b => b.enabled && (b.environment == environment))
    let cands2 :=
      if cands.isEmpty then
        tool.bindings.filter (fun b => b.enabled && (b.environment == "default"))
      else cands
    firstMaxBinding cands2

lemma le_priority_firstMaxAux (l : List ToolBinding) :
    ∀ b : ToolBinding, b.priority ≤ (firstMaxAux b l).priority := by
  induction l with
  | nil => intro b; simp [firstMaxAux]
  | cons c rest ih =>
    intro b
    simp only [firstMaxAux]
    by_cases h : b.priority < c.priority
    · simp only [h, if_pos]
      exact le_of_lt (lt_of_lt_of_le h (ih c))
    · simp only [h, if_neg, not_false_iff]
      exact ih b

lemma firstMaxAux_absorb (l : List ToolBinding) :
    ∀ x y : ToolBinding, y.priority ≤ x.priority →
      firstMaxAux x l =
        if (firstMaxAux y l).priority ≤ x.priority then x else firstMaxAux y l := by
  induction l with
  | nil =>
    intro x y h
    simp [firstMaxAux, h]
  | cons c cs ih =>
    intro x y h
    simp only [firstMaxAux]
    by_cases hxc : x.priority < c.priority
    · have hyc : y.priority < c.priority := lt_of_le_of_lt h hxc
      simp only [hxc, hyc, if_pos]
      have hc : c.priority ≤ (firstMaxAux c cs).priority := le_priority_firstMaxAux cs c
      have : ¬ (firstMaxAux c cs).priority ≤ x.priority := by
        intro hle
        exact absurd (lt_of_lt_of_le hxc hc) (not_lt_of_le hle)
      simp [this]
    · have hcx : c.priority ≤ x.priority := le_of_not_lt hxc
      simp only [hxc, if_neg, not_false_iff]
      by_cases hyc : y.priority < c.priority
      · simp only [hyc, if_pos]
        exact ih x c hcx
      · simp only [hyc, if_neg, not_false_iff]
        exact ih x y h

lemma head_sortByPriorityDesc (xs : List ToolBinding) :
    ∀ x : ToolBinding, (sortByPriorityDesc (x :: xs)).head? = some (firstMaxAux x xs) := by
  induction xs with
  | nil => intro x; simp [sortByPriorityDesc, insertDesc, firstMaxAux]
  | cons y ys ih =>
    intro x
    have hY := ih y
    simp only [sortByPriorityDesc] at hY ⊢
    cases hs : insertDesc y (sortByPriorityDesc ys) with
    | nil => rw [hs] at hY; simp at hY
    | cons h t =>
      rw [hs] at hY
      simp only [List.head?] at hY
      have hHead : h = firstMaxAux y ys := by injection hY
      simp only [insertDesc]
      by_cases hcmp : h.priority ≤ x.priority
      · simp only [hcmp, if_pos, List.head?]
        simp only [firstMaxAux]
        by_cases hxy : x.priority < y.priority
        · exfalso
          have hyh : y.priority ≤ h.priority := by
            rw [hHead]; exact le_priority_firstMaxAux ys y
          exact absurd (lt_of_lt_of_le hxy hyh) (not_lt_of_le hcmp)
        · simp only [hxy, if_neg, not_false_iff]
          have habs := firstMaxAux_absorb ys x y (le_of_not_lt hxy)
          rw [habs, ← hHead]
          simp [hcmp]
      · simp only [hcmp, if_neg, not_false_iff, List.head?]
        simp only [firstMaxAux]
        by_cases hxy : x.priority < y.priority
        · simp only [hxy, if_pos]
          rw [hHead]
        · simp only [hxy, if_neg, not_false_iff]
          have habs := firstMaxAux_absorb ys x y (le_of_not_lt hxy)
          rw [habs, ← hHead]
          simp [hcmp]

lemma sortHead_eq_firstMax (l : List ToolBinding) :
    (if l.isEmpty then none else (sortByPriorityDesc l).head?) = firstMaxBinding l := by
  cases l with
  | nil => simp [firstMaxBinding]
  | cons x xs =>
    simp only [List.isEmpty_cons, if_neg, Bool.false_eq_true, not_false_iff]
    rw [head_sortByPriorityDesc xs x]
    rfl

/-- C2: for every catalog and every (logical_name, environment), `get_binding`
returns, among the tool's bindings that are enabled and match the requested
environment, the binding with the highest priority value, ties broken by
original declaration order; if that filter is empty, the same selection over
enabled bindings of the `"default"` environment; and `none` when that is also
empty or the logical name is unknown. -/
theorem get_binding_eq_spec (cat : ToolCatalogState) (logical_name environment : String) :
    cat.get_binding logical_name environment =
      cat.get_binding_spec logical_name environment := by
  unfold ToolCatalogState.get_binding ToolCatalogState.get_binding_spec
    ToolCatalogState.get_tool
  cases cat.tools logical_name with
  | none => rfl
  | some tool =>
    simp only []
    exact sortHead_eq_firstMax _

/-- `ServerStatus` enum from `registry.py`. -/
inductive ServerStatus where
  | healthy
  | unhealthy
  | offline
  | unknown
deriving DecidableEq

/-- `ServerInstance` dataclass from `registry.py`.  Timestamps are integer
instants; the request counters are naturals. -/
structure ServerInstance where
  name : String
  description : String := ""
  environment : String := "default"
  weight : Int := 100
  config_ref : Option String := none
  status : ServerStatus := ServerStatus.unknown
  last_heartbeat : Option Int := none
  registered_at : Option Int := none
  consecutive_failures : Nat := 0
  consecutive_successes : Nat := 0
  total_requests : Nat := 0
  failed_requests : Nat := 0
  tools : List String := []
deriving DecidableEq

/-- The `health_check` section of `server_registry.yaml`, as read by
`mark_unhealthy` / `mark_healthy` (defaults 3 and 2 applied at read time). -/
structure HealthCheckConfig where
  unhealthy_threshold : Nat := 3
  healthy_threshold : Nat := 2
deriving DecidableEq

/-- One entry of the `static_servers` section of `server_registry.yaml`. -/
structure StaticServerConfig where
  name : String
  description : String := ""
  environment : String := "default"
  weight : Int := 100
  config_ref : Option String := none
deriving DecidableEq

/-- The parsed `server_registry.yaml` document (the parts the registry reads). -/
structure RegistryConfig where
  static_servers : List StaticServerConfig := []
  health_check : HealthCheckConfig := {}
deriving DecidableEq

/-- State of a `ServerRegistry` instance: the `servers` dict, the
`tool_to_servers` index and the loaded config.  A tool key absent from the
Python dict is identified with a key mapped to `[]` (the code reads the index
only through `dict.get(tool, [])` and deletes keys whose list became empty). -/
structure ServerRegistryState where
  servers : String → Option ServerInstance
  tool_to_servers : String → List String
  config : RegistryConfig

/-- `ServerRegistry._update_tool_mapping`: first remove `server_name` from
every entry (Python `list.remove` removes the first occurrence), then append
it to the entry of each tool in `tools` if not already present. -/
def ServerRegistryState.update_tool_mapping (st : ServerRegistryState)
    (server_name : String) (tools : List String) : ServerRegistryState :=
  let removed : String → List String := fun t => (st.tool_to_servers t).erase server_name
  let added := tools.foldl
    (fun m tool => fun t =>
      if t = tool then (if server_name ∈ m tool then m tool else m tool ++ [server_name])
      else m t)
    removed
  { st with tool_to_servers := added }

/-- `ServerRegistry.register`.  `tools` is `Option (List String)` (Python
default `None`); `None` and `[]` are both falsy, so `server.tools` is only
overwritten by a non-empty list. -/
def ServerRegistryState.register (st : ServerRegistryState) (name : String)
    (description : String) (environment : String) (weight : Int)
    (tools : Option (List String)) (now : Int) :
    ServerRegistryState × ServerInstance :=
  let toolsList := tools.getD []
  match st.servers name with
  | some server =>
    let server' := { server with
      description := description
      environment := environment
      weight := weight
      status := ServerStatus.healthy
      last_heartbeat := some now
      tools := if toolsList.isEmpty then server.tools else toolsList }
    let st' := { st with servers := fun n => if n = name then some server' else st.servers n }
    (st'.update_tool_mapping name toolsList, server')
  | none =>
    let server' : ServerInstance := {
      name := name
      description := description
      environment := environment
      weight := weight
      status := ServerStatus.healthy
      last_heartbeat := some now
      registered_at := some now
      tools := toolsList }
    let st' := { st with servers := fun n => if n = name then some server' else st.servers n }
    (st'.update_tool_mapping name toolsList, server')

/-- `ServerRegistry.get_servers_for_tool`: the healthy registered servers
listed under the tool's index entry. -/
def ServerRegistryState.get_servers_for_tool (st : ServerRegistryState)
    (tool_name : String) : List ServerInstance :=
  (st.tool_to_servers tool_name).filterMap (fun n =>
    match st.servers n with
    | some s => if s.status = ServerStatus.healthy then some s else none
    | none => none)

/-- `ServerRegistry.mark_unhealthy`. -/
def ServerRegistryState.mark_unhealthy (st : ServerRegistryState) (name : String) :
    ServerRegistryState :=
  match st.servers name with
  | none => st
  | some server =>
    let server1 := { server with
      consecutive_failures := server.consecutive_failures + 1
      consecutive_successes := 0 }
    let server2 :=
      if st.config.health_check.unhealthy_threshold ≤ server1.consecutive_failures
      then { server1 with status := ServerStatus.unhealthy }
      else server1
    { st with servers := fun n => if n = name then some server2 else st.servers n }

/-- `ServerRegistry.mark_healthy`: the status flips only when the success
streak reaches the threshold and the current status is not already HEALTHY. -/
def ServerRegistryState.mark_healthy (st : ServerRegistryState) (name : String) :
    ServerRegistryState :=
  match st.servers name with
  | none => st
  | some server =>
    let server1 := { server with
      consecutive_successes := server.consecutive_successes + 1
      consecutive_failures := 0 }
    let server2 :=
      if st.config.health_check.healthy_threshold ≤ server1.consecutive_successes ∧
          server1.status ≠ ServerStatus.healthy
      then { server1 with status := ServerStatus.healthy }
      else server1
    { st with servers := fun n => if n = name then some server2 else st.servers n }

/-- `ServerRegistry.record_request`. -/
def ServerRegistryState.record_request (st : ServerRegistryState) (name : String)
    (success : Bool) : ServerRegistryState :=
  match st.servers name with
  | none => st
  | some server =>
    let server' := { server with
      total_requests := server.total_requests + 1
      failed_requests := if success then server.failed_requests
                         else server.failed_requests + 1 }
    { st with servers := fun n => if n = name then some server' else st.servers n }

/-- Status of the server registered under `name`. -/
def ServerRegistryState.serverStatus (st : ServerRegistryState) (name : String) :
    Option ServerStatus :=
  (st.servers name).map (fun s => s.status)

/-- State after `k` consecutive `mark_unhealthy(name)` calls. -/
def afterFailures (st : ServerRegistryState) (name : String) (k : Nat) :
    ServerRegistryState :=
  ((fun t => ServerRegistryState.mark_unhealthy t name)^[k]) st

/-- State after `k` consecutive `mark_healthy(name)` calls. -/
def afterSuccesses (st : ServerRegistryState) (name : String) (k : Nat) :
    ServerRegistryState :=
  ((fun t => ServerRegistryState.mark_healthy t name)^[k]) st

lemma mark_unhealthy_config (st : ServerRegistryState) (name : String) :
    (st.mark_unhealthy name).config = st.config := by
  unfold ServerRegistryState.mark_unhealthy
  cases st.servers name <;> rfl

lemma mark_healthy_config (st : ServerRegistryState) (name : String) :
    (st.mark_healthy name).config = st.config := by
  unfold ServerRegistryState.mark_healthy
  cases st.servers name <;> rfl

lemma afterFailures_zero (st : ServerRegistryState) (name : String) :
    afterFailures st name 0 = st := rfl

lemma afterFailures_succ (st : ServerRegistryState) (name : String) (k : Nat) :
    afterFailures st name (k + 1) =
      ServerRegistryState.mark_unhealthy (afterFailures st name k) name := by
  unfold afterFailures
  rw [Function.iterate_succ_apply']

lemma afterSuccesses_zero (st : ServerRegistryState) (name : String) :
    afterSuccesses st name 0 = st := rfl

lemma afterSuccesses_succ (st : ServerRegistryState) (name : String) (k : Nat) :
    afterSuccesses st name (k + 1) =
      ServerRegistryState.mark_healthy (afterSuccesses st name k) name := by
  unfold afterSuccesses
  rw [Function.iterate_succ_apply']

lemma afterFailures_config (st : ServerRegistryState) (name : String) :
    ∀ k, (afterFailures st name k).config = st.config := by
  intro k
  induction k with
  | zero => rfl
  | succ k ih => rw [afterFailures_succ, mark_unhealthy_config, ih]

lemma afterSuccesses_config (st : ServerRegistryState) (name : String) :
    ∀ k, (afterSuccesses st name k).config = st.config := by
  intro k
  induction k with
  | zero => rfl
  | succ k ih => rw [afterSuccesses_succ, mark_healthy_config, ih]

lemma mark_unhealthy_step (st : ServerRegistryState) (name : String) (s : ServerInstance)
    (hs : st.servers name = some s) :
    (st.mark_unhealthy name).servers name =
      some (if st.config.health_check.unhealthy_threshold ≤ s.consecutive_failures + 1
            then { s with
              consecutive_failures := s.consecutive_failures + 1
              consecutive_successes := 0
              status := ServerStatus.unhealthy }
            else { s with
              consecutive_failures := s.consecutive_failures + 1
              consecutive_successes := 0 }) := by
  unfold ServerRegistryState.mark_unhealthy
  rw [hs]
  by_cases hT : st.config.health_check.unhealthy_threshold ≤ s.consecutive_failures + 1
  · simp [hT]
  · simp [hT]

lemma mark_healthy_step (st : ServerRegistryState) (name : String) (s : ServerInstance)
    (hs : st.servers name = some s) :
    (st.mark_healthy name).servers name =
      some (if st.config.health_check.healthy_threshold ≤ s.consecutive_successes + 1 ∧
               s.status ≠ ServerStatus.healthy
            then { s with
              consecutive_successes := s.consecutive_successes + 1
              consecutive_failures := 0
              status := ServerStatus.healthy }
            else { s with
              consecutive_successes := s.consecutive_successes + 1
              consecutive_failures := 0 }) := by
  unfold ServerRegistryState.mark_healthy
  rw [hs]
  by_cases hC : st.config.health_check.healthy_threshold ≤ s.consecutive_successes + 1 ∧
      s.status ≠ ServerStatus.healthy
  · simp [hC]
  · simp [hC]

lemma mark_unhealthy_iter (st : ServerRegistryState) (name : String) (s : ServerInstance)
    (hs : st.servers name = some s) (h0 : s.consecutive_failures = 0) :
    ∀ k : Nat,
      (afterFailures st name (k + 1)).servers name =
        some { s with
          consecutive_failures := k + 1
          consecutive_successes := 0
          status := if st.config.health_check.unhealthy_threshold ≤ k + 1
                    then ServerStatus.unhealthy else s.status } := by
  intro k
  induction k with
  | zero =>
    rw [afterFailures_succ, afterFailures_zero, mark_unhealthy_step st name s hs, h0]
    by_cases hT : st.config.health_check.unhealthy_threshold ≤ 0 + 1
    · simp [hT]
    · simp [hT]
  | succ k ih =>
    rw [afterFailures_succ, mark_unhealthy_step _ name _ ih, afterFailures_config st name (k + 1)]
    by_cases hT2 : st.config.health_check.unhealthy_threshold ≤ k + 1 + 1
    · simp [hT2]
    · have hT1 : ¬ st.config.health_check.unhealthy_threshold ≤ k + 1 := by omega
      simp [hT2, hT1]

lemma mark_healthy_iter (st : ServerRegistryState) (name : String) (s : ServerInstance)
    (hs : st.servers name = some s) (h0 : s.consecutive_successes = 0) :
    ∀ k : Nat,
      (afterSuccesses st name (k + 1)).servers name =
        some { s with
          consecutive_successes := k + 1
          consecutive_failures := 0
          status := if st.config.health_check.healthy_threshold ≤ k + 1
                    then ServerStatus.healthy else s.status } := by
  intro k
  induction k with
  | zero =>
    rw [afterSuccesses_succ, afterSuccesses_zero, mark_healthy_step st name s hs, h0]
    by_cases hH : st.config.health_check.healthy_threshold ≤ 0 + 1
    · by_cases hss : s.status = ServerStatus.healthy
      · simp [hH, hss]
      · simp [hH, hss]
    · simp [hH]
  | succ k ih =>
    rw [afterSuccesses_succ, mark_healthy_step _ name _ ih, afterSuccesses_config st name (k + 1)]
    by_cases hH2 : st.config.health_check.healthy_threshold ≤ k + 1 + 1
    · by_cases hH1 : st.config.health_check.healthy_threshold ≤ k + 1
      · simp [hH2, hH1]
      · by_cases hss : s.status = ServerStatus.healthy
        · simp [hH2, hH1, hss]
        · simp [hH2, hH1, hss]
    · have hH1 : ¬ st.config.health_check.healthy_threshold ≤ k + 1 := by omega
      simp [hH2, hH1]

/-- C3: from a registered server with status HEALTHY and zero streak counters,
the first `unhealthy_threshold − 1` consecutive `mark_unhealthy` calls leave
the status HEALTHY and the `unhealthy_threshold`-th sets it to UNHEALTHY; from
the UNHEALTHY state so reached, the first `healthy_threshold − 1` consecutive
`mark_healthy` calls leave it UNHEALTHY and the `healthy_threshold`-th
restores HEALTHY; and when `healthy_threshold ≥ 2`, a single `mark_healthy`
leaves the status UNHEALTHY but resets `consecutive_failures` to zero. -/
theorem health_state_machine
    (st : ServerRegistryState) (name : String) (s : ServerInstance)
    (hs : st.servers name = some s)
    (hstat : s.status = ServerStatus.healthy)
    (hf : s.consecutive_failures = 0)
    (hsc : s.consecutive_successes = 0)
    (hT : 1 ≤ st.config.health_check.unhealthy_threshold)
    (hH : 1 ≤ st.config.health_check.healthy_threshold) :
    (∀ k, k < st.config.health_check.unhealthy_threshold →
      (afterFailures st name k).serverStatus name = some ServerStatus.healthy) ∧
    (afterFailures st name st.config.health_check.unhealthy_threshold).serverStatus name =
      some ServerStatus.unhealthy ∧
    (∀ k, k < st.config.health_check.healthy_threshold →
      (afterSuccesses (afterFailures st name st.config.health_check.unhealthy_threshold)
          name k).serverStatus name = some ServerStatus.unhealthy) ∧
    (afterSuccesses (afterFailures st name st.config.health_check.unhealthy_threshold)
        name st.config.health_check.healthy_threshold).serverStatus name =
      some ServerStatus.healthy ∧
    (2 ≤ st.config.health_check.healthy_threshold →
      ((afterFailures st name st.config.health_check.unhealthy_threshold).mark_healthy
          name).serverStatus name = some ServerStatus.unhealthy ∧
      (((afterFailures st name st.config.health_check.unhealthy_threshold).mark_healthy
          name).servers name).map (fun i => i.consecutive_failures) = some 0) := by
  have hTsub : st.config.health_check.unhealthy_threshold - 1 + 1 =
      st.config.health_check.unhealthy_threshold := by omega
  have hU : (afterFailures st name st.config.health_check.unhealthy_threshold).servers name =
      some { s with
        consecutive_failures := st.config.health_check.unhealthy_threshold
        consecutive_successes := 0
        status := ServerStatus.unhealthy } := by
    have h := mark_unhealthy_iter st name s hs hf
      (st.config.health_check.unhealthy_threshold - 1)
    rw [hTsub] at h
    simpa using h
  have hUcs : ({ s with
      consecutive_failures := st.config.health_check.unhealthy_threshold
      consecutive_successes := 0
      status := ServerStatus.unhealthy } : ServerInstance).consecutive_successes = 0 := rfl
  have hUconf := afterFailures_config st name st.config.health_check.unhealthy_threshold
  refine ⟨?_, ?_, ?_, ?_, ?_⟩
  · intro k hk
    cases k with
    | zero =>
      rw [afterFailures_zero]
      simp [ServerRegistryState.serverStatus, hs, hstat]
    | succ k =>
      have h := mark_unhealthy_iter st name s hs hf k
      have hnk : ¬ st.config.health_check.unhealthy_threshold ≤ k + 1 := by omega
      simp [ServerRegistryState.serverStatus, h, hnk, hstat]
  · simp [ServerRegistryState.serverStatus, hU]
  · intro k hk
    cases k with
    | zero =>
      rw [afterSuccesses_zero]
      simp [ServerRegistryState.serverStatus, hU]
    | succ k =>
      have h := mark_healthy_iter _ name _ hU hUcs k
      rw [hUconf] at h
      have hnk : ¬ st.config.health_check.healthy_threshold ≤ k + 1 := by omega
      simp [ServerRegistryState.serverStatus, h, hnk]
  · have hHsub : st.config.health_check.healthy_threshold - 1 + 1 =
        st.config.health_check.healthy_threshold := by omega
    have h := mark_healthy_iter _ name _ hU hUcs
      (st.config.health_check.healthy_threshold - 1)
    rw [hUconf, hHsub] at h
    simp [ServerRegistryState.serverStatus, h]
  · intro h2
    have h := mark_healthy_iter _ name _ hU hUcs 0
    rw [hUconf] at h
    have hone : afterSuccesses
        (afterFailures st name st.config.health_check.unhealthy_threshold) name (0 + 1) =
        (afterFailures st name st.config.health_check.unhealthy_threshold).mark_healthy
          name := by
      rw [afterSuccesses_succ, afterSuccesses_zero]
    rw [hone] at h
    have hn1 : ¬ st.config.health_check.healthy_threshold ≤ 0 + 1 := by omega
    constructor
    · simp [ServerRegistryState.serverStatus, h, hn1]
    · simp [h, hn1]

/-- Concrete server used by the witnesses. -/
def sWit : ServerInstance := { name := "s1", status := ServerStatus.healthy }

/-- Concrete one-server registry (default thresholds 3 and 2). -/
def stWit : ServerRegistryState :=
  { servers := fun n => if n = "s1" then some sWit else none
    tool_to_servers := fun _ => []
    config := {} }

/-- Witness for `health_state_machine` at a concrete registry with
`unhealthy_threshold = 3`, `healthy_threshold = 2`. -/
theorem health_state_machine_witness :
    (afterFailures stWit "s1" 3).serverStatus "s1" = some ServerStatus.unhealthy ∧
    (afterSuccesses (afterFailures stWit "s1" 3) "s1" 2).serverStatus "s1" =
      some ServerStatus.healthy ∧
    ((afterFailures stWit "s1" 3).mark_healthy "s1").serverStatus "s1" =
      some ServerStatus.unhealthy := by
  have h := health_state_machine stWit "s1" sWit (by simp [stWit]) rfl rfl rfl
    (by decide) (by decide)
  exact ⟨h.2.1, h.2.2.2.1, (h.2.2.2.2 (by decide)).1⟩

lemma update_tool_mapping_servers (st : ServerRegistryState) (name : String)
    (tools : List String) : (st.update_tool_mapping name tools).servers = st.servers := rfl

lemma update_tool_mapping_nil (st : ServerRegistryState) (name : String) :
    (st.update_tool_mapping name []).tool_to_servers =
      fun t => (st.tool_to_servers t).erase name := rfl

lemma register_existing (st : ServerRegistryState) (name description environment : String)
    (weight : Int) (tools : Option (List String)) (now : Int) (s : ServerInstance)
    (hs : st.servers name = some s) (ht : tools.getD [] = []) :
    (st.register name description environment weight tools now).1 =
      ServerRegistryState.update_tool_mapping
        { st with servers := fun n =>
            if n = name then
              (some { s with
                description := description
                environment := environment
                weight := weight
                status := ServerStatus.healthy
                last_heartbeat := some now })
            else st.servers n }
        name [] := by
  unfold ServerRegistryState.register
  simp only [hs, ht]
  simp

lemma mem_get_servers_for_tool {st : ServerRegistryState} {tool : String}
    {s2 : ServerInstance} :
    s2 ∈ st.get_servers_for_tool tool ↔
      ∃ n ∈ st.tool_to_servers tool,
        st.servers n = some s2 ∧ s2.status = ServerStatus.healthy := by
  unfold ServerRegistryState.get_servers_for_tool
  rw [List.mem_filterMap]
  constructor
  · rintro ⟨n, hn, hf⟩
    cases hsn : st.servers n with
    | none => rw [hsn] at hf; simp at hf
    | some i =>
      rw [hsn] at hf
      have hf' : (if i.status = ServerStatus.healthy then some i else none) = some s2 := hf
      by_cases hst : i.status = ServerStatus.healthy
      · rw [if_pos hst] at hf'
        have : i = s2 := by injection hf'
        subst this
        exact ⟨n, hn, hsn, hst⟩
      · rw [if_neg hst] at hf'
        simp at hf'
  · rintro ⟨n, hn, hsn, hst⟩
    refine ⟨n, hn, ?_⟩
    rw [hsn]
    show (if s2.status = ServerStatus.healthy then some s2 else none) = some s2
    rw [if_pos hst]

/-- C10: re-registering an existing server with an omitted or empty tools list
removes the server from every entry of the tool-to-servers index (so
`get_servers_for_tool` no longer returns it for any tool) while leaving the
instance's `tools` field at its previous value; description, environment,
weight, status and last_heartbeat are updated as for a fresh announcement.
The two invariant hypotheses (duplicate-free index entries and key-name
coherence) hold for every state reachable through the registry API. -/
theorem register_empty_tools_frame
    (st : ServerRegistryState) (name description environment : String) (weight : Int)
    (tools : Option (List String)) (now : Int) (s : ServerInstance)
    (hs : st.servers name = some s)
    (ht : tools.getD [] = [])
    (hnodup : ∀ t, (st.tool_to_servers t).Nodup)
    (hcoh : ∀ n i, st.servers n = some i → i.name = n) :
    ((st.register name description environment weight tools now).1.servers name =
      some { s with
        description := description
        environment := environment
        weight := weight
        status := ServerStatus.healthy
        last_heartbeat := some now }) ∧
    (∀ tool, name ∉
      (st.register name description environment weight tools now).1.tool_to_servers tool) ∧
    (∀ tool s2,
      s2 ∈ (st.register name description environment weight tools now).1.get_servers_for_tool
        tool → s2.name ≠ name) := by
  rw [register_existing st name description environment weight tools now s hs ht]
  refine ⟨?_, ?_, ?_⟩
  · rw [update_tool_mapping_servers]
    simp
  · intro tool
    rw [update_tool_mapping_nil]
    intro hmem
    exact ((hnodup tool).mem_erase_iff.mp hmem).1 rfl
  · intro tool s2 hmem
    rcases mem_get_servers_for_tool.mp hmem with ⟨n, hn, hsn, _⟩
    rw [update_tool_mapping_nil] at hn
    have hne : n ≠ name := ((hnodup tool).mem_erase_iff.mp hn).1
    rw [update_tool_mapping_servers] at hsn
    simp only [hne, if_neg, not_false_iff] at hsn
    intro hname
    exact hne (by rw [← hname]; exact (hcoh n s2 hsn).symm)

/-- Concrete server with one tool, for the C10 witness. -/
def sWit2 : ServerInstance :=
  { name := "s1", status := ServerStatus.healthy, tools := ["ping"] }

/-- Concrete registry whose index lists `sWit2` under `"ping"`. -/
def stWit2 : ServerRegistryState :=
  { servers := fun n => if n = "s1" then some sWit2 else none
    tool_to_servers := fun t => if t = "ping" then ["s1"] else []
    config := {} }

/-- Witness for `register_empty_tools_frame` at a concrete registry. -/
theorem register_empty_tools_frame_witness :
    ((stWit2.register "s1" "d2" "prod" 50 none 777).1.servers "s1" =
      some { sWit2 with
        description := "d2"
        environment := "prod"
        weight := 50
        status := ServerStatus.healthy
        last_heartbeat := some 777 }) ∧
    "s1" ∉ (stWit2.register "s1" "d2" "prod" 50 none 777).1.tool_to_servers "ping" := by
  have h := register_empty_tools_frame stWit2 "s1" "d2" "prod" 50 none 777 sWit2
    (by simp [stWit2]) rfl
    (by intro t; simp only [stWit2]; split <;> simp)
    (by
      intro n i hi
      simp only [stWit2] at hi
      by_cases hn : n = "s1"
      · rw [if_pos hn] at hi
        have : sWit2 = i := by injection hi
        rw [← this, hn]; rfl
      · rw [if_neg hn] at hi
        exact absurd hi (by simp))
  exact ⟨h.1, h.2.1 "ping"⟩

/-- Lexicographic strict comparison of char lists by code point — the
ordering Python uses on `str`.  (The library's `String.ltb` does not reduce
inside the kernel, so the comparison is spelled out structurally.) -/
def charListLt : List Char → List Char → Bool
  | [], [] => false
  | [], _ :: _ => true
  | _ :: _, [] => false
  | a :: as, b :: bs => if a < b then true else if b < a then false else charListLt as bs

/-- Python `<` on strings. -/
def strLtB (a b : String) : Bool := charListLt a.data b.data

/-- Python `<=` on strings. -/
def strLeB (a b : String) : Bool := strLtB a b || a == b

/-- Insertion into a sorted list of strings (ascending). -/
def insertStr (x : String) : List String → List String
  | [] => [x]
  | y :: ys => if strLeB x y then x :: y :: ys else y :: insertStr x ys

/-- Stable ascending sort of strings, modelling Python `sorted`. -/
def sortStrings : List String → List String
  | [] => []
  | x :: xs => insertStr x (sortStrings xs)

/-- State of a `RoundRobinStrategy` instance (`router.py`): the `_counters`
dict keyed by the sorted, underscore-joined candidate names. -/
structure RoundRobinState where
  counters : String → Option Nat

/-- The counter key built by `RoundRobinStrategy.select`:
`"_".join(sorted(s.name for s in servers))`. -/
def rrKey (servers : List ServerInstance) : String :=
  String.intercalate "_" (sortStrings (servers.map (fun s => s.name)))

/-- `RoundRobinStrategy.select`: `None` on an empty candidate list, otherwise
`servers[counter % len(servers)]`, incrementing the key's counter (a missing
counter starts at 0).  `params` is accepted and unused, as in the source. -/
def RoundRobinState.select (st : RoundRobinState) (servers : List ServerInstance)
    (params : List (String × String)) : Option ServerInstance × RoundRobinState :=
  if servers.isEmpty then (none, st)
  else
    let key := rrKey servers
    let counter := (st.counters key).getD 0
    let index := counter % servers.length
    (servers.get? index,
      { counters := fun k => if k = key then some (counter + 1) else st.counters k })

/-- The round-robin state after `k` consecutive `select` calls on the same
candidate list. -/
def rrRun (st : RoundRobinState) (servers : List ServerInstance)
    (params : List (String × String)) (k : Nat) : RoundRobinState :=
  ((fun t => (RoundRobinState.select t servers params).2)^[k]) st

lemma rrRun_zero (st : RoundRobinState) (servers : List ServerInstance)
    (params : List (String × String)) : rrRun st servers params 0 = st := rfl

lemma rrRun_succ (st : RoundRobinState) (servers : List ServerInstance)
    (params : List (String × String)) (k : Nat) :
    rrRun st servers params (k + 1) =
      (RoundRobinState.select (rrRun st servers params k) servers params).2 := by
  unfold rrRun
  rw [Function.iterate_succ_apply']

lemma rrRun_counter (st : RoundRobinState) (a : ServerInstance) (as : List ServerInstance)
    (params : List (String × String))
    (hfresh : st.counters (rrKey (a :: as)) = none) :
    ∀ k, ((rrRun st (a :: as) params k).counters (rrKey (a :: as))).getD 0 = k := by
  intro k
  induction k with
  | zero => rw [rrRun_zero, hfresh]; rfl
  | succ k ih =>
    rw [rrRun_succ]
    unfold RoundRobinState.select
    simp only [List.isEmpty_cons, Bool.false_eq_true, if_neg, not_false_iff]
    simp [ih]

/-- C5: with a fresh counter for the candidate list's key, the `k`-th
consecutive round-robin `select` call on a fixed non-empty candidate list
returns `candidates[(k−1) mod N]`; in particular the first `N` calls visit
each candidate exactly once in declared order and the pattern repeats every
`N` calls. -/
theorem round_robin_cycles (st : RoundRobinState) (servers : List ServerInstance)
    (params : List (String × String))
    (hne : servers ≠ [])
    (hfresh : st.counters (rrKey servers) = none) :
    ∀ k, 1 ≤ k →
      (RoundRobinState.select (rrRun st servers params (k - 1)) servers params).1 =
        servers.get? ((k - 1) % servers.length) := by
  obtain ⟨a, as, rfl⟩ : ∃ a as, servers = a :: as := by
    cases servers with
    | nil => exact absurd rfl hne
    | cons a as => exact ⟨a, as, rfl⟩
  intro k hk
  have hc := rrRun_counter st a as params hfresh (k - 1)
  unfold RoundRobinState.select
  simp only [List.isEmpty_cons, Bool.false_eq_true, if_neg, not_false_iff]
  simp [hc]

/-- Two concrete candidate servers for the C5 witness. -/
def srvA : ServerInstance := { name := "alpha", status := ServerStatus.healthy }

/-- Second concrete candidate server. -/
def srvB : ServerInstance := { name := "beta", status := ServerStatus.healthy }

/-- Witness for `round_robin_cycles`: on the two-server list, calls 1, 2 and 3
return the first, the second and again the first server. -/
theorem round_robin_cycles_witness :
    (RoundRobinState.select (rrRun ⟨fun _ => none⟩ [srvA, srvB] [] 0) [srvA, srvB] []).1 =
      some srvA ∧
    (RoundRobinState.select (rrRun ⟨fun _ => none⟩ [srvA, srvB] [] 1) [srvA, srvB] []).1 =
      some srvB ∧
    (RoundRobinState.select (rrRun ⟨fun _ => none⟩ [srvA, srvB] [] 2) [srvA, srvB] []).1 =
      some srvA := by
  have h := round_robin_cycles ⟨fun _ => none⟩ [srvA, srvB] [] (by simp) rfl
  exact ⟨h 1 (by decide), h 2 (by decide), h 3 (by decide)⟩

/-- `ToolCallRequest` dataclass from `models.py`.  The uuid-derived
`request_id` is a parameter of the embedded gateway entry points. -/
structure ToolCallRequest where
  logical_name : String
  params : List (String × String)
  caller_agent : String
  session_id : Option String := none
  request_id : String
  timestamp : Int
deriving DecidableEq

/-- `ToolCallResult` dataclass from `models.py`; `α` is the type of the raw
tool result payload. -/
structure ToolCallResult (α : Type) where
  request_id : String
  logical_name : String
  physical_tool : String
  mcp_server : String
  status : ToolCallStatus
  result : Option α := none
  error : Option String := none
  start_time : Int
  end_time : Option Int := none
  duration_ms : Option Int := none
deriving DecidableEq

/-- `ToolCallResult.complete`: stamps the end time, final status, payload and
error, and sets `duration_ms` (with integer millisecond instants the duration
is `now − start_time`; the Python truthiness guard on the two datetimes is
always satisfied). -/
def ToolCallResult.complete {α : Type} (r : ToolCallResult α) (now : Int)
    (status : ToolCallStatus) (result : Option α) (error : Option String) :
    ToolCallResult α :=
  { r with
    end_time := some now
    status := status
    result := result
    error := error
    duration_ms := some (now - r.start_time) }

/-- Statuses other than PENDING and RUNNING are terminal. -/
def ToolCallStatus.isTerminal : ToolCallStatus → Bool
  | ToolCallStatus.pending => false
  | ToolCallStatus.running => false
  | _ => true

/-- Observable outcome of one gateway entry-point invocation: the returned
result, the list of `AuditLogger.log_call` invocations (request/result pairs),
the number of Connection-Manager (`mcp_manager.call_tool`) invocations, and
the registry state after the call. -/
structure CallOutcome (α : Type) where
  result : ToolCallResult α
  audit_log : List (ToolCallRequest × ToolCallResult α)
  mcp_invocations : Nat
  registry : ServerRegistryState

/-- `ToolGateway.call_tool` from `gateway.py`.  `selectServer` abstracts the
routing strategy's `select`, `mcpCall` the MCP manager invocation (its
`.error` case models a raised exception, covering the whole `try` body's
failure modes); `t0`/`t1` are the start and completion instants.  The
transient `status = RUNNING` assignment before the MCP call is not observable
in the outcome and is elided. -/
def call_tool {α : Type} (catalog : ToolCatalogState) (registry : ServerRegistryState)
    (selectServer : List ServerInstance → List (String × String) → Option ServerInstance)
    (mcpCall : String → List (String × String) → Except String α)
    (logical_name : String) (params : List (String × String)) (caller_agent : String)
    (session_id : Option String) (environment : String)
    (request_id : String) (t0 t1 : Int) : CallOutcome α :=
  let request : ToolCallRequest := {
    logical_name := logical_name
    params := params
    caller_agent := caller_agent
    session_id := session_id
    request_id := request_id
    timestamp := t0 }
  let result0 : ToolCallResult α := {
    request_id := request_id
    logical_name := logical_name
    physical_tool := ""
    mcp_server := ""
    status := ToolCallStatus.pending
    start_time := t0 }
  match catalog.get_binding logical_name environment with
  | none =>
    let r := result0.complete t1 ToolCallStatus.failed none
      (some ("未找到工具: " ++ logical_name))
    { result := r, audit_log := [(request, r)], mcp_invocations := 0, registry := registry }
  | some binding =>
    let result1 := { result0 with
      physical_tool := binding.physical_tool
      mcp_server := binding.mcp_server }
    let denied : Bool :=
      match catalog.get_tool logical_name with
      | some tool_def =>
        match tool_def.permissions with
        | some perm =>
          !perm.allowed_agents.isEmpty && !(perm.allowed_agents.contains caller_agent)
        | none => false
      | none => false
    if denied then
      let r := result1.complete t1 ToolCallStatus.permission_denied none
        (some ("Agent \x27" ++ caller_agent ++ "\x27 无权调用工具 \x27" ++
          logical_name ++ "\x27"))
      { result := r, audit_log := [(request, r)], mcp_invocations := 0, registry := registry }
    else
      let servers := registry.get_servers_for_tool binding.physical_tool
      let selected := if servers.isEmpty then none else selectServer servers params
      let result2 :=
        match selected with
        | some srv => { result1 with mcp_server := srv.name }
        | none => result1
      match mcpCall binding.physical_tool params with
      | Except.ok v =>
        let r := result2.complete t1 ToolCallStatus.success (some v) none
        let registry' :=
          match selected with
          | some srv => (registry.record_request srv.name true).mark_healthy srv.name
          | none => registry
        { result := r, audit_log := [(request, r)], mcp_invocations := 1,
          registry := registry' }
      | Except.error e =>
        let r := result2.complete t1 ToolCallStatus.failed none (some e)
        let registry' :=
          match selected with
          | some srv => (registry.record_request srv.name false).mark_unhealthy srv.name
          | none => registry
        { result := r, audit_log := [(request, r)], mcp_invocations := 1,
          registry := registry' }

/-- `ToolGateway.call_tool_by_physical_name` from `gateway.py`: resolve the
logical name through the reverse index and delegate, or fall back to a direct
physical invocation. -/
def call_tool_by_physical_name {α : Type} (catalog : ToolCatalogState)
    (registry : ServerRegistryState)
    (selectServer : List ServerInstance → List (String × String) → Option ServerInstance)
    (mcpCall : String → List (String × String) → Except String α)
    (physical_name : String) (params : List (String × String)) (caller_agent : String)
    (session_id : Option String) (request_id : String) (t0 t1 : Int) : CallOutcome α :=
  match catalog.get_logical_name physical_name with
  | some logical_name =>
    call_tool catalog registry selectServer mcpCall logical_name params caller_agent
      session_id "default" request_id t0 t1
  | none =>
    let request : ToolCallRequest := {
      logical_name := physical_name
      params := params
      caller_agent := caller_agent
      session_id := session_id
      request_id := request_id
      timestamp := t0 }
    let result0 : ToolCallResult α := {
      request_id := request_id
      logical_name := physical_name
      physical_tool := physical_name
      mcp_server := "unknown"
      status := ToolCallStatus.pending
      start_time := t0 }
    match mcpCall physical_name params with
    | Except.ok v =>
      let r := result0.complete t1 ToolCallStatus.success (some v) none
      { result := r, audit_log := [(request, r)], mcp_invocations := 1,
        registry := registry }
    | Except.error e =>
      let r := result0.complete t1 ToolCallStatus.failed none (some e)
      { result := r, audit_log := [(request, r)], mcp_invocations := 1,
        registry := registry }

lemma call_tool_audit_once {α : Type} (catalog : ToolCatalogState)
    (registry : ServerRegistryState)
    (selectServer : List ServerInstance → List (String × String) → Option ServerInstance)
    (mcpCall : String → List (String × String) → Except String α)
    (logical_name : String) (params : List (String × String)) (caller_agent : String)
    (session_id : Option String) (environment : String)
    (request_id : String) (t0 t1 : Int) :
    (call_tool catalog registry selectServer mcpCall logical_name params caller_agent
      session_id environment request_id t0 t1).audit_log.length = 1 ∧
    (call_tool catalog registry selectServer mcpCall logical_name params caller_agent
      session_id environment request_id t0 t1).audit_log.all
      (fun p => p.2.status.isTerminal && p.2.duration_ms.isSome) = true ∧
    (call_tool catalog registry selectServer mcpCall logical_name params caller_agent
      session_id environment request_id t0 t1).result.status.isTerminal = true ∧
    (call_tool catalog registry selectServer mcpCall logical_name params caller_agent
      session_id environment request_id t0 t1).result.duration_ms.isSome = true := by
  unfold call_tool
  cases catalog.get_binding logical_name environment with
  | none => simp [ToolCallResult.complete, ToolCallStatus.isTerminal]
  | some binding =>
    dsimp only
    split
    · simp [ToolCallResult.complete, ToolCallStatus.isTerminal]
    · cases mcpCall binding.physical_tool params with
      | ok v => simp [ToolCallResult.complete, ToolCallStatus.isTerminal]
      | error e => simp [ToolCallResult.complete, ToolCallStatus.isTerminal]

/-- C1: every invocation of `call_tool` and of the back-compatibility entry
`call_tool_by_physical_name` — unknown tool, permission denial, successful
invocation, or invocation exception — produces exactly one audit-log entry,
whose result (also the returned one) carries a terminal status and a non-null
`duration_ms`. -/
theorem audit_exactly_once {α : Type} (catalog : ToolCatalogState)
    (registry : ServerRegistryState)
    (selectServer : List ServerInstance → List (String × String) → Option ServerInstance)
    (mcpCall : String → List (String × String) → Except String α)
    (name : String) (params : List (String × String)) (caller_agent : String)
    (session_id : Option String) (environment : String)
    (request_id : String) (t0 t1 : Int) :
    ((call_tool catalog registry selectServer mcpCall name params caller_agent
      session_id environment request_id t0 t1).audit_log.length = 1 ∧
    (call_tool catalog registry selectServer mcpCall name params caller_agent
      session_id environment request_id t0 t1).audit_log.all
      (fun p => p.2.status.isTerminal && p.2.duration_ms.isSome) = true ∧
    (call_tool catalog registry selectServer mcpCall name params caller_agent
      session_id environment request_id t0 t1).result.status.isTerminal = true ∧
    (call_tool catalog registry selectServer mcpCall name params caller_agent
      session_id environment request_id t0 t1).result.duration_ms.isSome = true) ∧
    ((call_tool_by_physical_name catalog registry selectServer mcpCall name params
      caller_agent session_id request_id t0 t1).audit_log.length = 1 ∧
    (call_tool_by_physical_name catalog registry selectServer mcpCall name params
      caller_agent session_id request_id t0 t1).audit_log.all
      (fun p => p.2.status.isTerminal && p.2.duration_ms.isSome) = true ∧
    (call_tool_by_physical_name catalog registry selectServer mcpCall name params
      caller_agent session_id request_id t0 t1).result.status.isTerminal = true ∧
    (call_tool_by_physical_name catalog registry selectServer mcpCall name params
      caller_agent session_id request_id t0 t1).result.duration_ms.isSome = true) := by
  constructor
  · exact call_tool_audit_once catalog registry selectServer mcpCall name params
      caller_agent session_id environment request_id t0 t1
  · unfold call_tool_by_physical_name
    cases catalog.get_logical_name name with
    | some logical_name =>
      exact call_tool_audit_once catalog registry selectServer mcpCall logical_name
        params caller_agent session_id "default" request_id t0 t1
    | none =>
      cases mcpCall name params with
      | ok v => simp [ToolCallResult.complete, ToolCallStatus.isTerminal]
      | error e => simp [ToolCallResult.complete, ToolCallStatus.isTerminal]

/-- Total MCP invocations over `n` repeated `call_tool` attempts with the same
arguments, threading the registry state through the attempts. -/
def call_tool_repeat {α : Type} (catalog : ToolCatalogState)
    (selectServer : List ServerInstance → List (String × String) → Option ServerInstance)
    (mcpCall : String → List (String × String) → Except String α)
    (logical_name : String) (params : List (String × String)) (caller_agent : String)
    (session_id : Option String) (environment : String)
    (request_id : String) (t0 t1 : Int) :
    Nat → ServerRegistryState → Nat × ServerRegistryState
  | 0, registry => (0, registry)
  | n + 1, registry =>
    let o := call_tool catalog registry selectServer mcpCall logical_name params
      caller_agent session_id environment request_id t0 t1
    let rest := call_tool_repeat catalog selectServer mcpCall logical_name params
      caller_agent session_id environment request_id t0 t1 n o.registry
    (o.mcp_invocations + rest.1, rest.2)

lemma call_tool_denied {α : Type} (catalog : ToolCatalogState)
    (registry : ServerRegistryState)
    (selectServer : List ServerInstance → List (String × String) → Option ServerInstance)
    (mcpCall : String → List (String × String) → Except String α)
    (logical_name : String) (params : List (String × String)) (caller_agent : String)
    (session_id : Option String) (environment : String)
    (request_id : String) (t0 t1 : Int)
    (binding : ToolBinding)
    (hb : catalog.get_binding logical_name environment = some binding)
    (tool_def : ToolDefinition)
    (hg : catalog.get_tool logical_name = some tool_def)
    (perm : ToolPermission)
    (hp : tool_def.permissions = some perm)
    (hne : perm.allowed_agents ≠ [])
    (hnotin : caller_agent ∉ perm.allowed_agents) :
    (call_tool catalog registry selectServer mcpCall logical_name params caller_agent
      session_id environment request_id t0 t1).result.status =
      ToolCallStatus.permission_denied ∧
    (call_tool catalog registry selectServer mcpCall logical_name params caller_agent
      session_id environment request_id t0 t1).mcp_invocations = 0 ∧
    (call_tool catalog registry selectServer mcpCall logical_name params caller_agent
      session_id environment request_id t0 t1).registry = registry := by
  have hie : perm.allowed_agents.isEmpty = false := by
    cases h : perm.allowed_agents with
    | nil => exact absurd h hne
    | cons a as => rfl
  have hco : perm.allowed_agents.contains caller_agent = false := by
    simpa using hnotin
  unfold call_tool
  rw [hb]
  simp only [hg, hp, hie, hco]
  simp [ToolCallResult.complete]

/-- C4: when the resolved tool has a non-empty allowed-caller set not
containing `caller_agent`, `call_tool` returns PERMISSION_DENIED, performs no
Connection-Manager invocation, leaves the registry untouched, and across any
number of repeated attempts the total invocation count stays 0. -/
theorem permission_denied_no_invocation {α : Type} (catalog : ToolCatalogState)
    (registry : ServerRegistryState)
    (selectServer : List ServerInstance → List (String × String) → Option ServerInstance)
    (mcpCall : String → List (String × String) → Except String α)
    (logical_name : String) (params : List (String × String)) (caller_agent : String)
    (session_id : Option String) (environment : String)
    (request_id : String) (t0 t1 : Int)
    (binding : ToolBinding)
    (hb : catalog.get_binding logical_name environment = some binding)
    (tool_def : ToolDefinition)
    (hg : catalog.get_tool logical_name = some tool_def)
    (perm : ToolPermission)
    (hp : tool_def.permissions = some perm)
    (hne : perm.allowed_agents ≠ [])
    (hnotin : caller_agent ∉ perm.allowed_agents) :
    (call_tool catalog registry selectServer mcpCall logical_name params caller_agent
      session_id environment request_id t0 t1).result.status =
      ToolCallStatus.permission_denied ∧
    (call_tool catalog registry selectServer mcpCall logical_name params caller_agent
      session_id environment request_id t0 t1).mcp_invocations = 0 ∧
    (∀ n, (call_tool_repeat catalog selectServer mcpCall logical_name params caller_agent
      session_id environment request_id t0 t1 n registry).1 = 0) := by
  have hd := call_tool_denied catalog registry selectServer mcpCall logical_name params
    caller_agent session_id environment request_id t0 t1 binding hb tool_def hg perm hp
    hne hnotin
  refine ⟨hd.1, hd.2.1, ?_⟩
  intro n
  induction n with
  | zero => rfl
  | succ n ih =>
    simp only [call_tool_repeat]
    rw [hd.2.2, hd.2.1, ih]

/-- Concrete binding for the C4 witness. -/
def bindWit : ToolBinding := { mcp_server := "m1", physical_tool := "net.ping" }

/-- Concrete tool definition restricting callers to `agentA`. -/
def toolWit : ToolDefinition :=
  { logical_name := "ping", bindings := [bindWit],
    permissions := some { allowed_agents := ["agentA"] } }

/-- Concrete catalog with the single tool `ping`. -/
def catWit : ToolCatalogState :=
  { tools := fun n => if n = "ping" then some toolWit else none
    physical_to_logical := fun p => if p = "net.ping" then some "ping" else none }

/-- Witness for `permission_denied_no_invocation`: caller `evil` is denied and
five repeated attempts perform zero Connection-Manager invocations. -/
theorem permission_denied_no_invocation_witness :
    (call_tool catWit stWit (fun _ _ => none)
      (fun _ _ => (Except.ok "ok" : Except String String)) "ping" [] "evil" none
      "default" "r1" 0 5).result.status = ToolCallStatus.permission_denied ∧
    (call_tool_repeat catWit (fun _ _ => none)
      (fun _ _ => (Except.ok "ok" : Except String String)) "ping" [] "evil" none
      "default" "r1" 0 5 5 stWit).1 = 0 := by
  have h := permission_denied_no_invocation catWit stWit (fun _ _ => none)
    (fun _ _ => (Except.ok "ok" : Except String String)) "ping" [] "evil" none
    "default" "r1" 0 5 bindWit (by decide) toolWit (by decide)
    { allowed_agents := ["agentA"] } rfl (by decide) (by decide)
  exact ⟨h.1, h.2.2 5⟩

/-- Python single-quote character, used by `repr` of strings. -/
def pyQuote : String := "\x27"

/-- Membership lookup in the params dict (`field in params` + `params[field]`). -/
def lookupParam (params : List (String × String)) (f : String) : Option String :=
  (params.find? (fun p => p.1 == f)).map (fun p => p.2)

/-- The first configured hash field that is present in `params` with a truthy
(non-empty) value, and its value. -/
def firstPresentField (hash_fields : List String) (params : List (String × String)) :
    Option String :=
  hash_fields.findSome? (fun f =>
    match lookupParam params f with
    | some v => if v ≠ "" then some v else none
    | none => none)

/-- Ordering on dict items used by Python `sorted(params.items())`
(lexicographic on the key, then the value). -/
def pairLeB (a b : String × String) : Bool :=
  strLtB a.1 b.1 || (a.1 == b.1 && strLeB a.2 b.2)

/-- Sorted insertion of a dict item. -/
def insertPair (x : String × String) :
    List (String × String) → List (String × String)
  | [] => [x]
  | y :: ys => if pairLeB x y then x :: y :: ys else y :: insertPair x ys

/-- Stable ascending sort of dict items, modelling `sorted(params.items())`. -/
def sortPairs : List (String × String) → List (String × String)
  | [] => []
  | x :: xs => insertPair x (sortPairs xs)

/-- Python `repr` of a `(str, str)` tuple (no escaping needed for the
plain identifiers appearing in hash keys). -/
def reprPair (p : String × String) : String :=
  "(" ++ pyQuote ++ p.1 ++ pyQuote ++ ", " ++ pyQuote ++ p.2 ++ pyQuote ++ ")"

/-- `str(sorted(params.items()))`. -/
def reprSortedItems (params : List (String × String)) : String :=
  "[" ++ String.intercalate ", " ((sortPairs params).map reprPair) ++ "]"

/-- `ConsistentHashStrategy._get_hash_key` from `router.py`.  `rnd` models the
string rendering of the `random.random()` draw; it is consumed only when the
params dict is falsy (`None` or empty).  Otherwise the key is the value of the
first present truthy configured field, or `str(sorted(params.items()))`. -/
def get_hash_key (hash_fields : List String) (params : List (String × String))
    (rnd : String) : String :=
  if params.isEmpty then rnd
  else
    match firstPresentField hash_fields params with
    | some v => v
    | none => reprSortedItems params

lemma firstPresentField_nil (hash_fields : List String) :
    firstPresentField hash_fields [] = none := by
  induction hash_fields with
  | nil => rfl
  | cons f fs ih =>
    unfold firstPresentField at ih ⊢
    simp only [List.findSome?, lookupParam, List.find?, Option.map_none]
    exact ih

lemma firstPresentField_ne_nil {hash_fields : List String}
    {params : List (String × String)} {v : String}
    (h : firstPresentField hash_fields params = some v) : params ≠ [] := by
  intro hnil
  subst hnil
  rw [firstPresentField_nil] at h
  exact Option.noConfusion h

lemma get_hash_key_isEmpty_false {params : List (String × String)}
    (h : params ≠ []) : params.isEmpty = false := by
  cases params with
  | nil => exact absurd rfl h
  | cons a as => rfl

lemma get_hash_key_rnd_independent (hash_fields : List String)
    (params : List (String × String)) (rnd1 rnd2 : String) (h : params ≠ []) :
    get_hash_key hash_fields params rnd1 = get_hash_key hash_fields params rnd2 := by
  unfold get_hash_key
  rw [get_hash_key_isEmpty_false h]
  simp

lemma get_hash_key_of_first (hash_fields : List String)
    (params : List (String × String)) (rnd v : String)
    (hf : firstPresentField hash_fields params = some v) :
    get_hash_key hash_fields params rnd = v := by
  unfold get_hash_key
  rw [get_hash_key_isEmpty_false (firstPresentField_ne_nil hf)]
  simp [hf]

/-- C6 counterexample: with the default configured fields and the non-empty
params dict `{"x": "1"}`, none of the configured fields is present, yet the
hash key does not equal the drawn random value and is independent of the
draw — refuting "whenever none of the configured fields is present the key is
a random value". -/
theorem hash_key_random_counterexample :
    ((["target", "query", "domain"] : List String).all
      (fun f => (lookupParam [("x", "1")] f).isNone)) = true ∧
    get_hash_key ["target", "query", "domain"] [("x", "1")] "0.5" ≠ "0.5" ∧
    get_hash_key ["target", "query", "domain"] [("x", "1")] "0.5" =
      get_hash_key ["target", "query", "domain"] [("x", "1")] "0.7" := by
  refine ⟨by decide, by decide, by decide⟩

/-- C6 amended: the hash key is the value of the first configured field
present and truthy in the params dict; when the dict is non-empty and no
configured field is present the key is the deterministic string of the sorted
parameter items (independent of the random draw); the key is the random value
only when the params dict is empty or absent. -/
theorem hash_key_characterization (hash_fields : List String)
    (params : List (String × String)) (rnd1 rnd2 : String) :
    (params = [] → get_hash_key hash_fields params rnd1 = rnd1) ∧
    (params ≠ [] →
      get_hash_key hash_fields params rnd1 = get_hash_key hash_fields params rnd2) ∧
    (∀ v, firstPresentField hash_fields params = some v →
      get_hash_key hash_fields params rnd1 = v) ∧
    (params ≠ [] → firstPresentField hash_fields params = none →
      get_hash_key hash_fields params rnd1 = reprSortedItems params) := by
  refine ⟨?_, ?_, ?_, ?_⟩
  · intro h
    subst h
    rfl
  · intro h
    exact get_hash_key_rnd_independent hash_fields params rnd1 rnd2 h
  · intro v hf
    exact get_hash_key_of_first hash_fields params rnd1 v hf
  · intro h hf
    unfold get_hash_key
    rw [get_hash_key_isEmpty_false h]
    simp [hf]

/-- Witness for `hash_key_characterization`: a present `target` field becomes
the key, and an absent one yields the sorted-items string. -/
theorem hash_key_characterization_witness :
    get_hash_key ["target"] [("target", "10.0.0.1")] "0.5" = "10.0.0.1" ∧
    get_hash_key ["target"] [("x", "1")] "0.5" = reprSortedItems [("x", "1")] := by
  constructor
  · exact (hash_key_characterization ["target"] [("target", "10.0.0.1")] "0.5" "0.9").2.2.1
      "10.0.0.1" (by decide)
  · exact (hash_key_characterization ["target"] [("x", "1")] "0.5" "0.9").2.2.2
      (by decide) (by decide)

/-- Sorted insertion of a hash position. -/
def insertNat (x : Nat) : List Nat → List Nat
  | [] => [x]
  | y :: ys => if x ≤ y then x :: y :: ys else y :: insertNat x ys

/-- Ascending sort of hash positions, modelling `self._ring.sort()`. -/
def sortNats : List Nat → List Nat
  | [] => []
  | x :: xs => insertNat x (sortNats xs)

/-- State of a `ConsistentHashStrategy` instance: the sorted ring, the
hash-to-server-name dict and the candidate-set signature the ring was last
built for. -/
structure ConsistentHashState where
  ring : List Nat
  nodes : Nat → Option String
  built_for : Option String

/-- The candidate-set signature: `",".join(sorted(s.name for s in servers))`. -/
def chSignature (servers : List ServerInstance) : String :=
  String.intercalate "," (sortStrings (servers.map (fun s => s.name)))

/-- `ConsistentHashStrategy._build_ring`, parametrised by the hash function
(`hashFn` abstracts `int(md5(key).hexdigest(), 16)` from the standard
library).  A ring already built for the same signature is kept; otherwise
`virtual_nodes` positions per server are hashed from `"{name}:{i}"`, the ring
is sorted, and the nodes dict maps each position to the last server name
written at it. -/
def build_ring (hashFn : String → Nat) (virtual_nodes : Nat)
    (st : ConsistentHashState) (servers : List ServerInstance) : ConsistentHashState :=
  let signature := chSignature servers
  if st.built_for = some signature then st
  else
    let pairs := servers.flatMap (fun srv =>
      (List.range virtual_nodes).map (fun i =>
        (hashFn (srv.name ++ ":" ++ toString i), srv.name)))
    { ring := sortNats (pairs.map (fun p => p.1))
      nodes := fun h => (pairs.reverse.find? (fun p => p.1 == h)).map (fun p => p.2)
      built_for := some signature }

/-- `bisect_left` on an ascending-sorted list: the index of the first element
`≥ x`. -/
def bisectLeft (l : List Nat) (x : Nat) : Nat :=
  (l.takeWhile (fun y => decide (y < x))).length

/-- `ConsistentHashStrategy.select`: empty list yields `None`; a single
candidate is returned directly; otherwise the ring is (re)built, the params
hash key is hashed, and the first ring position `≥` the hash (wrapping to
position 0) names the chosen server.  The `none` arms model the IndexError /
KeyError raised on an empty ring (only possible with `virtual_nodes = 0`). -/
def ch_select (hashFn : String → Nat) (virtual_nodes : Nat) (hash_fields : List String)
    (st : ConsistentHashState) (servers : List ServerInstance)
    (params : List (String × String)) (rnd : String) :
    Option ServerInstance × ConsistentHashState :=
  if servers.isEmpty then (none, st)
  else if servers.length = 1 then (servers.head?, st)
  else
    let st' := build_ring hashFn virtual_nodes st servers
    let key := get_hash_key hash_fields params rnd
    let h := hashFn key
    let idx0 := bisectLeft st'.ring h
    let idx := if st'.ring.length ≤ idx0 then 0 else idx0
    let res :=
      match st'.ring.get? idx with
      | none => none
      | some hv =>
        match st'.nodes hv with
        | none => none
        | some server_name =>
          match servers.find? (fun s => s.name == server_name) with
          | some srv => some srv
          | none => servers.head?
    (res, st')

lemma build_ring_built_for (hashFn : String → Nat) (virtual_nodes : Nat)
    (st : ConsistentHashState) (servers : List ServerInstance) :
    (build_ring hashFn virtual_nodes st servers).built_for =
      some (chSignature servers) := by
  unfold build_ring
  by_cases h : st.built_for = some (chSignature servers)
  · simp [h]
  · simp [h]

lemma build_ring_idem (hashFn : String → Nat) (virtual_nodes : Nat)
    (st : ConsistentHashState) (servers : List ServerInstance) :
    build_ring hashFn virtual_nodes (build_ring hashFn virtual_nodes st servers)
      servers = build_ring hashFn virtual_nodes st servers := by
  have hb := build_ring_built_for hashFn virtual_nodes st servers
  generalize hg : build_ring hashFn virtual_nodes st servers = st2 at hb ⊢
  unfold build_ring
  simp [hb]

lemma ch_select_state (hashFn : String → Nat) (virtual_nodes : Nat)
    (hash_fields : List String) (st : ConsistentHashState)
    (servers : List ServerInstance) (params : List (String × String)) (rnd : String)
    (hlen : 2 ≤ servers.length) :
    (ch_select hashFn virtual_nodes hash_fields st servers params rnd).2 =
      build_ring hashFn virtual_nodes st servers := by
  have hne : ¬ servers.isEmpty = true := by
    cases servers with
    | nil => simp at hlen
    | cons a as => simp
  have h1 : ¬ servers.length = 1 := by omega
  unfold ch_select
  rw [if_neg hne, if_neg h1]

/-- C7: with at least two candidates and a params dict containing a
configured hash field, two consecutive `ConsistentHashStrategy.select` runs
with the same params and the same candidate list return the same server,
independently of the random draws. -/
theorem consistent_hash_deterministic (hashFn : String → Nat) (virtual_nodes : Nat)
    (hash_fields : List String) (st : ConsistentHashState)
    (servers : List ServerInstance) (params : List (String × String))
    (rnd1 rnd2 : String)
    (hlen : 2 ≤ servers.length)
    (v : String) (hf : firstPresentField hash_fields params = some v) :
    (ch_select hashFn virtual_nodes hash_fields
      (ch_select hashFn virtual_nodes hash_fields st servers params rnd1).2
      servers params rnd2).1 =
    (ch_select hashFn virtual_nodes hash_fields st servers params rnd1).1 := by
  have hne : ¬ servers.isEmpty = true := by
    cases servers with
    | nil => simp at hlen
    | cons a as => simp
  have h1 : ¬ servers.length = 1 := by omega
  have hkey : get_hash_key hash_fields params rnd2 = get_hash_key hash_fields params rnd1 :=
    get_hash_key_rnd_independent hash_fields params rnd2 rnd1
      (firstPresentField_ne_nil hf)
  rw [ch_select_state hashFn virtual_nodes hash_fields st servers params rnd1 hlen]
  unfold ch_select
  simp only [if_neg hne, if_neg h1]
  rw [build_ring_idem, hkey]

/-- Witness for `consistent_hash_deterministic` at a concrete two-server list
with `hashFn = String.length` and three virtual nodes per server. -/
theorem consistent_hash_deterministic_witness :
    (ch_select String.length 3 ["target"]
      (ch_select String.length 3 ["target"] ⟨[], fun _ => none, none⟩
        [srvA, srvB] [("target", "10.0.0.1")] "0.5").2
      [srvA, srvB] [("target", "10.0.0.1")] "0.8").1 =
    (ch_select String.length 3 ["target"] ⟨[], fun _ => none, none⟩
      [srvA, srvB] [("target", "10.0.0.1")] "0.5").1 := by
  exact consistent_hash_deterministic String.length 3 ["target"]
    ⟨[], fun _ => none, none⟩ [srvA, srvB] [("target", "10.0.0.1")] "0.5" "0.8"
    (by decide) "10.0.0.1" (by decide)

/-- `AuditRecord` dataclass from `models.py` (as serialized to the day files;
`params` with string values, instants as integers). -/
structure AuditRecord where
  request_id : String
  session_id : Option String
  caller_agent : String
  logical_name : String
  physical_tool : String
  mcp_server : String
  params : List (String × String)
  status : ToolCallStatus
  result_summary : Option String
  error : Option String
  start_time : Int
  end_time : Option Int
  duration_ms : Option Int
deriving DecidableEq

/-- Sorted insertion of a day file by descending filename. -/
def insertFileDesc (x : String × List AuditRecord) :
    List (String × List AuditRecord) → List (String × List AuditRecord)
  | [] => [x]
  | y :: ys => if strLeB y.1 x.1 then x :: y :: ys else y :: insertFileDesc x ys

/-- `sorted(self.log_dir.glob("audit_*.jsonl"), reverse=True)`: day files in
descending filename (hence descending date) order. -/
def sortFilesDesc : List (String × List AuditRecord) → List (String × List AuditRecord)
  | [] => []
  | x :: xs => insertFileDesc x (sortFilesDesc xs)

/-- The three `continue` conditions of `query_logs`: a record is skipped when
a truthy filter is given and the corresponding field differs. -/
def rejected (r : AuditRecord)
    (caller_agent logical_name session_id : Option String) : Bool :=
  (match caller_agent with
   | some c => !(c == "") && !(r.caller_agent == c)
   | none => false) ||
  (match logical_name with
   | some l => !(l == "") && !(r.logical_name == l)
   | none => false) ||
  (match session_id with
   | some sid => !(sid == "") && !(r.session_id == some sid)
   | none => false)

/-- The inner line loop of `query_logs` over one day file: before each line
the accumulated count is checked against `limit`, then the filters are
applied and a matching record is appended. -/
def scanFile (limit : Nat) (caller_agent logical_name session_id : Option String) :
    List AuditRecord → List AuditRecord → List AuditRecord
  | [], acc => acc
  | r :: rest, acc =>
    if limit ≤ acc.length then acc
    else if rejected r caller_agent logical_name session_id then
      scanFile limit caller_agent logical_name session_id rest acc
    else
      scanFile limit caller_agent logical_name session_id rest (acc ++ [r])

/-- `AuditLogger.query_logs` from `audit.py` over an in-memory store of day
files (filename, appended records).  `start_time` and `end_time` are accepted
exactly as in the source — which never reads them. -/
def query_logs (files : List (String × List AuditRecord))
    (start_time end_time : Option Int)
    (caller_agent logical_name session_id : Option String)
    (limit : Nat) : List AuditRecord :=
  let sorted_files := sortFilesDesc files
  let records := sorted_files.foldl
    (fun acc f => scanFile limit caller_agent logical_name session_id f.2 acc) []
  records.take limit

/-- Day-1 record (start_time 100) for the C8 counterexample. -/
def recA1 : AuditRecord :=
  { request_id := "a1", session_id := none, caller_agent := "agent",
    logical_name := "ping", physical_tool := "net.ping", mcp_server := "m",
    params := [], status := ToolCallStatus.success, result_summary := none,
    error := none, start_time := 100, end_time := some 101, duration_ms := some 1 }

/-- Day-2 record appended first (start_time 200). -/
def recB1 : AuditRecord :=
  { request_id := "b1", session_id := none, caller_agent := "agent",
    logical_name := "ping", physical_tool := "net.ping", mcp_server := "m",
    params := [], status := ToolCallStatus.success, result_summary := none,
    error := none, start_time := 200, end_time := some 201, duration_ms := some 1 }

/-- Day-2 record appended second (start_time 300, the most recent one). -/
def recB2 : AuditRecord :=
  { request_id := "b2", session_id := none, caller_agent := "agent",
    logical_name := "ping", physical_tool := "net.ping", mcp_server := "m",
    params := [], status := ToolCallStatus.success, result_summary := none,
    error := none, start_time := 300, end_time := some 301, duration_ms := some 1 }

/-- Two-day audit store for the C8 counterexample. -/
def filesWit : List (String × List AuditRecord) :=
  [("audit_2024-01-01.jsonl", [recA1]), ("audit_2024-01-02.jsonl", [recB1, recB2])]

/-- C8 counterexample: querying the two-day store with time range
`[250, 260]` returns all three records — `recB1` (start_time 200) and `recA1`
(start_time 100) lie outside the range, so the time-range filter is not
applied; and `recB1` precedes the more recent `recB2`, so the result is not
most-recent-first across the store. -/
theorem query_logs_counterexample :
    query_logs filesWit (some 250) (some 260) none none none 10 =
      [recB1, recB2, recA1] ∧
    recB1.start_time < 250 ∧
    recB1.start_time < recB2.start_time := by
  refine ⟨by decide, by decide, by decide⟩

lemma scanFile_all (limit : Nat) (ca ln sid : Option String)
    (recs : List AuditRecord) :
    ∀ acc, acc.all (fun r => !(rejected r ca ln sid)) = true →
      (scanFile limit ca ln sid recs acc).all (fun r => !(rejected r ca ln sid)) = true := by
  induction recs with
  | nil => intro acc h; exact h
  | cons r rest ih =>
    intro acc h
    unfold scanFile
    by_cases h1 : limit ≤ acc.length
    · rw [if_pos h1]; exact h
    · rw [if_neg h1]
      by_cases h2 : rejected r ca ln sid = true
      · rw [if_pos h2]; exact ih acc h
      · rw [if_neg h2]
        apply ih
        rw [List.all_append]
        simp [h, h2]

lemma foldl_scan_all (limit : Nat) (ca ln sid : Option String)
    (files : List (String × List AuditRecord)) :
    ∀ acc, acc.all (fun r => !(rejected r ca ln sid)) = true →
      (files.foldl (fun acc f => scanFile limit ca ln sid f.2 acc) acc).all
        (fun r => !(rejected r ca ln sid)) = true := by
  induction files with
  | nil => intro acc h; exact h
  | cons f fs ih =>
    intro acc h
    exact ih _ (scanFile_all limit ca ln sid f.2 acc h)

lemma all_take {p : AuditRecord → Bool} {l : List AuditRecord} (n : Nat)
    (h : l.all p = true) : (l.take n).all p = true := by
  rw [List.all_eq_true] at h ⊢
  intro x hx
  exact h x (List.take_subset n l hx)

/-- C8 amended: `query_logs` ignores `start_time` and `end_time` entirely; it
returns at most `limit` records, each passing the caller / logical-name /
session-id filters; records are gathered from day files in descending
filename order but within each day file in append (oldest-first) order, so
the result is ordered most-recent-file-first, not most-recent-record-first. -/
theorem query_logs_actual_behavior (files : List (String × List AuditRecord))
    (t1 t2 t3 t4 : Option Int) (ca ln sid : Option String) (limit : Nat) :
    (query_logs files t1 t2 ca ln sid limit).length ≤ limit ∧
    query_logs files t1 t2 ca ln sid limit = query_logs files t3 t4 ca ln sid limit ∧
    (query_logs files t1 t2 ca ln sid limit).all
      (fun r => !(rejected r ca ln sid)) = true := by
  refine ⟨?_, rfl, ?_⟩
  · unfold query_logs
    rw [List.length_take]
    exact Nat.min_le_left _ _
  · unfold query_logs
    apply all_take
    exact foldl_scan_all limit ca ln sid (sortFilesDesc files) [] rfl

/-- The parsed `routing` section of `server_registry.yaml`, held by a
`ToolGateway` instance (key-value view; its contents are not inspected by the
claims). -/
structure ToolGatewayState where
  routing_config : List (String × String)
deriving DecidableEq

/-- State of an `AuditLogger` instance: the resolved log directory and the
summary truncation length. -/
structure AuditLoggerState where
  log_dir : String
  max_result_length : Nat
deriving DecidableEq

/-- `ServerRegistry.__init__` body on first construction: load the config
(`load` abstracts the YAML file read), seed the static servers with status
UNKNOWN, start with an empty tool index. -/
def registryInit (cfg : RegistryConfig) (now : Int) : ServerRegistryState :=
  { servers := cfg.static_servers.foldl
      (fun m sc => fun n =>
        if n = sc.name then
          (some { name := sc.name
                  description := sc.description
                  environment := sc.environment
                  weight := sc.weight
                  config_ref := sc.config_ref
                  status := ServerStatus.unknown
                  registered_at := some now })
        else m n)
      (fun _ => none)
    tool_to_servers := fun _ => []
    config := cfg }

/-- `ToolCatalog.__new__` + `__init__`: an existing initialized instance is
returned unchanged (the `config_path` argument is never read); otherwise the
instance is built by the loader and cached. -/
def ToolCatalog.construct (load : Option String → ToolCatalogState)
    (config_path : Option String) (inst : Option ToolCatalogState) :
    ToolCatalogState × Option ToolCatalogState :=
  match inst with
  | some c => (c, some c)
  | none =>
    let c := load config_path
    (c, some c)

/-- `ServerRegistry.__new__` + `__init__` (singleton pattern, as above). -/
def ServerRegistry.construct (load : Option String → RegistryConfig)
    (config_path : Option String) (now : Int) (inst : Option ServerRegistryState) :
    ServerRegistryState × Option ServerRegistryState :=
  match inst with
  | some r => (r, some r)
  | none =>
    let r := registryInit (load config_path) now
    (r, some r)

/-- `AuditLogger.__new__` + `__init__`: on first construction the log
directory defaults to `defaultDir` when the argument is `None` and
`max_result_length` is stored; afterwards both arguments are ignored. -/
def AuditLogger.construct (defaultDir : String) (log_dir : Option String)
    (max_result_length : Nat) (inst : Option AuditLoggerState) :
    AuditLoggerState × Option AuditLoggerState :=
  match inst with
  | some a => (a, some a)
  | none =>
    let a : AuditLoggerState :=
      { log_dir := log_dir.getD defaultDir, max_result_length := max_result_length }
    (a, some a)

/-- `ToolGateway.__new__` + `__init__` (no constructor arguments beyond the
implicit configuration load). -/
def ToolGateway.construct (init : Unit → ToolGatewayState)
    (inst : Option ToolGatewayState) : ToolGatewayState × Option ToolGatewayState :=
  match inst with
  | some g => (g, some g)
  | none =>
    let g := init ()
    (g, some g)

/-- C9: `ToolCatalog`, `ServerRegistry`, `AuditLogger` and `ToolGateway` are
singletons: every construction after the first returns the identical
already-initialized instance unchanged and silently ignores its constructor
arguments — e.g. a later `ServerRegistry(config_path)` or
`AuditLogger(log_dir, max_result_length)` does not apply the given
configuration. -/
theorem singleton_constructors_ignore_args
    (loadC : Option String → ToolCatalogState) (p1 p2 : Option String)
    (c : ToolCatalogState)
    (loadR : Option String → RegistryConfig) (q1 q2 : Option String) (n1 n2 : Int)
    (r : ServerRegistryState)
    (d1 d2 : String) (ld1 ld2 : Option String) (m1 m2 : Nat) (a : AuditLoggerState)
    (initG : Unit → ToolGatewayState) (g : ToolGatewayState) :
    ToolCatalog.construct loadC p1 (some c) = (c, some c) ∧
    ToolCatalog.construct loadC p1 (some c) = ToolCatalog.construct loadC p2 (some c) ∧
    ServerRegistry.construct loadR q1 n1 (some r) = (r, some r) ∧
    ServerRegistry.construct loadR q1 n1 (some r) =
      ServerRegistry.construct loadR q2 n2 (some r) ∧
    AuditLogger.construct d1 ld1 m1 (some a) = (a, some a) ∧
    AuditLogger.construct d1 ld1 m1 (some a) =
      AuditLogger.construct d2 ld2 m2 (some a) ∧
    ToolGateway.construct initG (some g) = (g, some g) := by
  exact ⟨rfl, rfl, rfl, rfl, rfl, rfl, rfl⟩

end ToolGW
